import Mathlib

/-!
Verification of the trajectory computation engine of `tracjectory_manager.py`
(`TrajectoryProcessor`): the minimum-curvature solver `_minimum_curvature`,
the survey normalization / CRS-zone / azimuth-reference steps of
`calculate_well`, and the formation-top synchronization `_recalc_tops_physics`.

Modelling conventions: Python/NumPy floating-point values are modelled as exact
real numbers in the trigonometric solver, and as exact rationals in the purely
order-and-arithmetic parts (survey normalization, tops interpolation, UTM zone
selection), which keeps those parts decidable.  NumPy's vectorized operations
on the aligned slices `a[:-1]` and `a[1:]` are rendered as maps over the list
of adjacent pairs.
-/

namespace Traj

/-! ### Minimum-curvature solver: `_minimum_curvature` (lines 12-78) -/

/-- `np.radians`: degrees to radians (lines 22-23). -/
noncomputable def radians (d : ℝ) : ℝ := d * (Real.pi / 180)

/-- `np.clip(x, -1, 1)` (line 58). -/
noncomputable def clip1 (x : ℝ) : ℝ := min (max x (-1)) 1

/-- One entry of the vectorized `cos_beta` (line 58).  The pair `p` holds the
two adjacent stations' (inclination, azimuth), both already in radians:
`p.1 = (i1, a1)` and `p.2 = (i2, a2)`. -/
noncomputable def cosBeta (p : (ℝ × ℝ) × (ℝ × ℝ)) : ℝ :=
  clip1 (Real.cos p.1.1 * Real.cos p.2.1 +
    Real.sin p.1.1 * Real.sin p.2.1 * Real.cos (p.2.2 - p.1.2))

/-- One entry of the vectorized `beta = np.arccos(cos_beta)` (line 59). -/
noncomputable def beta (p : (ℝ × ℝ) × (ℝ × ℝ)) : ℝ := Real.arccos (cosBeta p)

/-- One entry of the vectorized ratio-factor computation (lines 60-63):
`rf[beta > 0.0001] = (2/beta) * tan(beta/2)` and `rf[~mask] = 1.0`. -/
noncomputable def ratioFactor (b : ℝ) : ℝ :=
  if b > 0.0001 then (2 / b) * Real.tan (b / 2) else 1

/-- `np.diff`: pairwise adjacent differences. -/
def npDiff (xs : List ℝ) : List ℝ := List.zipWith (fun a b => b - a) xs xs.tail

/-- The elementwise pairing of the slices taken at lines 54-55: entry `k` is
`((inc_rad[k], azi_rad[k]), (inc_rad[k+1], azi_rad[k+1]))`. -/
def stationPairs (inc_rad azi_rad : List ℝ) : List ((ℝ × ℝ) × (ℝ × ℝ)) :=
  let ia := inc_rad.zip azi_rad
  ia.zip ia.tail

/-- The vectorized `beta` array over a survey (lines 58-59). -/
noncomputable def betaArr (inc_rad azi_rad : List ℝ) : List ℝ :=
  (stationPairs inc_rad azi_rad).map beta

/-- The vectorized `rf` array over a survey (lines 60-63). -/
noncomputable def rfArr (inc_rad azi_rad : List ℝ) : List ℝ :=
  (betaArr inc_rad azi_rad).map ratioFactor

/-- One entry of `dn` (line 65), given the interval's ΔMD `d`, the adjacent
station pair `p` (radians) and its ratio factor `rf`. -/
noncomputable def dN (d : ℝ) (p : (ℝ × ℝ) × (ℝ × ℝ)) (rf : ℝ) : ℝ :=
  (d / 2) * (Real.sin p.1.1 * Real.cos p.1.2 + Real.sin p.2.1 * Real.cos p.2.2) * rf

/-- One entry of `de` (line 66). -/
noncomputable def dE (d : ℝ) (p : (ℝ × ℝ) × (ℝ × ℝ)) (rf : ℝ) : ℝ :=
  (d / 2) * (Real.sin p.1.1 * Real.sin p.1.2 + Real.sin p.2.1 * Real.sin p.2.2) * rf

/-- One entry of `dtvd` (line 67). -/
noncomputable def dTVD (d : ℝ) (p : (ℝ × ℝ) × (ℝ × ℝ)) (rf : ℝ) : ℝ :=
  (d / 2) * (Real.cos p.1.1 + Real.cos p.2.1) * rf

/-- The four arrays returned by `_minimum_curvature` (line 78). -/
structure MCMResult where
  tvd : List ℝ
  north : List ℝ
  east : List ℝ
  true_z : List ℝ

/-- `_minimum_curvature(md, inc, azi, start_elev)` (lines 12-78), including the
discarded first interval/dogleg computations (lines 26-48), rendered as
shadowed local bindings exactly as the Python rebinds the same names. -/
noncomputable def minimum_curvature (md inc azi : List ℝ) (start_elev : ℝ) : MCMResult :=
  let inc_rad := inc.map radians
  let azi_rad := azi.map radians
  let d_md := npDiff (md.take 1 ++ md)
  let rf := rfArr inc_rad azi_rad
  let dm := d_md.tail
  let d_md := 0 :: npDiff md
  let d_sec := npDiff md
  let pairs := stationPairs inc_rad azi_rad
  let rf := rfArr inc_rad azi_rad
  let dn := List.zipWith (fun d q => dN d q.1 q.2) d_sec (pairs.zip rf)
  let de := List.zipWith (fun d q => dE d q.1 q.2) d_sec (pairs.zip rf)
  let dtvd := List.zipWith (fun d q => dTVD d q.1 q.2) d_sec (pairs.zip rf)
  let tvd := dtvd.scanl (· + ·) 0
  let north := dn.scanl (· + ·) 0
  let east := de.scanl (· + ·) 0
  { tvd := tvd, north := north, east := east,
    true_z := tvd.map (fun t => start_elev - t) }

/-- Modelled from the spec: the Minimum-Curvature Solver of spec section 4.2,
with the single correct interval-difference computation — the pairwise
adjacent-station measured-depth deltas computed exactly once (design note of
spec section 9). -/
noncomputable def minimum_curvature_single_diff (md inc azi : List ℝ) (start_elev : ℝ) :
    MCMResult :=
  let inc_rad := inc.map radians
  let azi_rad := azi.map radians
  let d_sec := npDiff md
  let pairs := stationPairs inc_rad azi_rad
  let rf := rfArr inc_rad azi_rad
  let dn := List.zipWith (fun d q => dN d q.1 q.2) d_sec (pairs.zip rf)
  let de := List.zipWith (fun d q => dE d q.1 q.2) d_sec (pairs.zip rf)
  let dtvd := List.zipWith (fun d q => dTVD d q.1 q.2) d_sec (pairs.zip rf)
  let tvd := dtvd.scanl (· + ·) 0
  let north := dn.scanl (· + ·) 0
  let east := de.scanl (· + ·) 0
  { tvd := tvd, north := north, east := east,
    true_z := tvd.map (fun t => start_elev - t) }

/-! ### Survey normalization, zone selection and azimuth reference
(`calculate_well`, lines 94-117) -/

/-- A survey station record from the `survey_points` payload. -/
structure Station where
  md : ℚ
  inc : ℚ
  azi : ℚ
deriving DecidableEq

/-- The survey-normalization steps of `calculate_well` (lines 94-102):
`if not row.survey_points: return` (skip, no exception raised);
`pd.DataFrame(row.survey_points).sort_values('md')`; `if df.empty: return`.
`none` models the early `return`. -/
def normalize_survey (pts : List Station) : Option (List Station) :=
  if pts.isEmpty then none
  else
    let sorted := pts.mergeSort (fun a b => decide (a.md ≤ b.md))
    if sorted.isEmpty then none else some sorted

/-- Python `int(...)` applied to a number: truncation toward zero. -/
def pyInt (x : ℚ) : ℤ := if 0 ≤ x then ⌊x⌋ else ⌈x⌉

/-- Lines 106-107: `zone = int((lon + 180) / 6) + 1; epsg = 26900 + zone`.
`lat` is in scope at this point of `calculate_well` but is not used by the
zone selection. -/
def epsg_for (lon lat : ℚ) : ℤ := 26900 + (pyInt ((lon + 180) / 6) + 1)

/-- Python `str.lower()`, modelled character by character (ASCII case fold,
which covers the reference strings involved). -/
def strLower (s : String) : String := ⟨s.data.map Char.toLower⟩

/-- Lines 115-117: `grid_azi = df['azi'].values`; if
`str(row.azimuth_ref).lower() == 'true north'` then
`grid_azi = df['azi'].values - convergence`. -/
def apply_convergence (azimuth_ref : String) (convergence : ℝ) (azi : List ℝ) : List ℝ :=
  if strLower azimuth_ref = "true north" then azi.map (fun a => a - convergence) else azi

/-! ### Tops synchronization: `_recalc_tops_physics` (lines 161-187) -/

/-- A `formation_tops` row as touched by the code: primary key `top_id`,
pick depth `depth_md`, and the derived `depth_tvd` column (`none` when never
computed). -/
structure Top where
  top_id : ℕ
  depth_md : ℚ
  depth_tvd : Option ℚ
deriving DecidableEq

/-- `np.interp` on the zipped `(xp, fp)` points: piecewise-linear
interpolation, clamped to the end values outside the grid. -/
def interpPts (x : ℚ) : List (ℚ × ℚ) → ℚ
  | [] => 0
  | [p] => p.2
  | p :: q :: rest =>
    if x ≤ p.1 then p.2
    else if x ≤ q.1 then p.2 + (q.2 - p.2) * (x - p.1) / (q.1 - p.1)
    else interpPts x (q :: rest)

/-- `np.interp(x, xp, fp)` (line 182). -/
def npInterp (x : ℚ) (xp fp : List ℚ) : ℚ := interpPts x (xp.zip fp)

/-- `array.max()` of a (nonempty) NumPy array. -/
def listMax (xs : List ℚ) : ℚ := xs.foldl max (xs.headD 0)

/-- `array.min()` of a (nonempty) NumPy array. -/
def listMin (xs : List ℚ) : ℚ := xs.foldl min (xs.headD 0)

/-- The per-top loop of `_recalc_tops_physics` (lines 174-183): tops deeper
than `survey_md.max()` or shallower than `survey_md.min()` are passed over;
the rest get `np.interp(t.depth_md, survey_md, survey_tvd)` appended to
`update_data`. -/
def recalc_tops (survey_md survey_tvd : List ℚ) (tops : List Top) : List (ℕ × ℚ) :=
  tops.filterMap fun t =>
    if t.depth_md > listMax survey_md then none
    else if t.depth_md < listMin survey_md then none
    else some (t.top_id, npInterp t.depth_md survey_md survey_tvd)

/-- Effect on one row of `UPDATE formation_tops SET depth_tvd = :tvd WHERE
top_id = :tid` for a single parameter set `u`. -/
def updOne (u : ℕ × ℚ) (t : Top) : Top :=
  if t.top_id = u.1 then { t with depth_tvd := some u.2 } else t

/-- Effect of the batch UPDATE (line 186) on the whole `formation_tops`
table, one parameter set after the other. -/
def apply_updates (tops : List Top) (upds : List (ℕ × ℚ)) : List Top :=
  upds.foldl (fun acc u => acc.map (updOne u)) tops

/-! ### Helper lemmas -/

/-- The code's clip written `min (max x (-1)) 1` agrees with the spec's
`clamp(x, -1, 1) = max (-1) (min x 1)`. -/
theorem clip1_eq_clamp (x : ℝ) : clip1 x = max (-1) (min x 1) := by
  have h1 : max (-1 : ℝ) 1 = 1 := max_eq_right (by norm_num)
  rw [clip1, max_min_distrib_left, h1, max_comm]

/-- The code's branch `rf = (2/b)·tan(b/2) when b > 0.0001 else 1` agrees with
the spec's `rf = 1 when b ≤ 1e-4 else (2/b)·tan(b/2)`. -/
theorem ratioFactor_spec (b : ℝ) :
    ratioFactor b = if b ≤ 1e-4 then 1 else (2 / b) * Real.tan (b / 2) := by
  have he : (0.0001 : ℝ) = 1e-4 := by norm_num
  rw [ratioFactor, he]
  rcases le_or_lt b 1e-4 with h | h
  · rw [if_neg (not_lt.mpr h), if_pos h]
  · rw [if_pos h, if_neg (not_le.mpr h)]

/-- Unfolding of the `tvd` output of `_minimum_curvature` to its live
computation (the shadowed bindings zeta-reduce away). -/
theorem mc_tvd (md inc azi : List ℝ) (kb : ℝ) :
    (minimum_curvature md inc azi kb).tvd =
      (List.zipWith (fun d q => dTVD d q.1 q.2) (npDiff md)
        ((stationPairs (inc.map radians) (azi.map radians)).zip
          (rfArr (inc.map radians) (azi.map radians)))).scanl (· + ·) 0 := rfl

/-- Unfolding of the `north` output of `_minimum_curvature`. -/
theorem mc_north (md inc azi : List ℝ) (kb : ℝ) :
    (minimum_curvature md inc azi kb).north =
      (List.zipWith (fun d q => dN d q.1 q.2) (npDiff md)
        ((stationPairs (inc.map radians) (azi.map radians)).zip
          (rfArr (inc.map radians) (azi.map radians)))).scanl (· + ·) 0 := rfl

/-- Unfolding of the `east` output of `_minimum_curvature`. -/
theorem mc_east (md inc azi : List ℝ) (kb : ℝ) :
    (minimum_curvature md inc azi kb).east =
      (List.zipWith (fun d q => dE d q.1 q.2) (npDiff md)
        ((stationPairs (inc.map radians) (azi.map radians)).zip
          (rfArr (inc.map radians) (azi.map radians)))).scanl (· + ·) 0 := rfl

/-- Unfolding of the `true_z` output of `_minimum_curvature`. -/
theorem mc_true_z (md inc azi : List ℝ) (kb : ℝ) :
    (minimum_curvature md inc azi kb).true_z =
      (minimum_curvature md inc azi kb).tvd.map (fun t => kb - t) := rfl

/-- Index-access glue: station `k`'s (inclination, azimuth) in radians. -/
noncomputable def stationAt (inc azi : List ℝ) (k : ℕ) : ℝ × ℝ :=
  (radians (inc.getD k 0), radians (azi.getD k 0))

theorem getD_zipWith {α β γ : Type} (f : α → β → γ) (da : α) (db : β) (dc : γ) :
    ∀ (xs : List α) (ys : List β) (k : ℕ), k < xs.length → k < ys.length →
      (List.zipWith f xs ys).getD k dc = f (xs.getD k da) (ys.getD k db) := by
  intro xs
  induction xs with
  | nil => intro ys k h _; simp at h
  | cons x xt ih =>
    intro ys k h1 h2
    cases ys with
    | nil => simp at h2
    | cons y yt =>
      cases k with
      | zero => rfl
      | succ k => simpa using ih yt k (by simpa using h1) (by simpa using h2)

theorem getD_zipPair {α β : Type} (da : α) (db : β) (xs : List α) (ys : List β) (k : ℕ)
    (h1 : k < xs.length) (h2 : k < ys.length) :
    (xs.zip ys).getD k (da, db) = (xs.getD k da, ys.getD k db) :=
  @getD_zipWith α β (α × β) Prod.mk da db (da, db) xs ys k h1 h2

theorem getD_tail {α : Type} (d : α) : ∀ (xs : List α) (k : ℕ),
    xs.tail.getD k d = xs.getD (k + 1) d := by
  intro xs k
  cases xs <;> rfl

theorem getD_map_at {α β : Type} (f : α → β) (da : α) (db : β) :
    ∀ (xs : List α) (k : ℕ), k < xs.length → (xs.map f).getD k db = f (xs.getD k da) := by
  intro xs
  induction xs with
  | nil => intro k h; simp at h
  | cons x xt ih =>
    intro k h
    cases k with
    | zero => rfl
    | succ k => simpa using ih k (by simpa using h)

theorem npDiff_length (xs : List ℝ) : (npDiff xs).length = xs.length - 1 := by
  simp only [npDiff, List.length_zipWith, List.length_tail]
  omega

theorem npDiff_getD (xs : List ℝ) (k : ℕ) (hk : k + 1 < xs.length) :
    (npDiff xs).getD k 0 = xs.getD (k + 1) 0 - xs.getD k 0 := by
  rw [npDiff, getD_zipWith (fun a b => b - a) 0 0 0 xs xs.tail k (by omega)
    (by simp only [List.length_tail]; omega), getD_tail]

theorem stationPairs_length (ir ar : List ℝ) :
    (stationPairs ir ar).length = min ir.length ar.length - 1 := by
  simp only [stationPairs, List.length_zip, List.length_tail]
  omega

theorem stationPairs_getD (inc azi : List ℝ) (k : ℕ)
    (hk : k + 1 < inc.length) (hka : k + 1 < azi.length) :
    (stationPairs (inc.map radians) (azi.map radians)).getD k ((0, 0), (0, 0)) =
      (stationAt inc azi k, stationAt inc azi (k + 1)) := by
  have hia : ((inc.map radians).zip (azi.map radians)).length = min inc.length azi.length := by
    simp
  have hb1 : k < ((inc.map radians).zip (azi.map radians)).length := by omega
  have hb2 : k < ((inc.map radians).zip (azi.map radians)).tail.length := by
    simp only [List.length_tail]
    omega
  have hbi1 : k < (inc.map radians).length := by simp only [List.length_map]; omega
  have hbi2 : k + 1 < (inc.map radians).length := by simp only [List.length_map]; omega
  have hba1 : k < (azi.map radians).length := by simp only [List.length_map]; omega
  have hba2 : k + 1 < (azi.map radians).length := by simp only [List.length_map]; omega
  rw [stationPairs]
  rw [getD_zipPair (0, 0) (0, 0) _ _ k hb1 hb2]
  rw [getD_tail]
  rw [getD_zipPair 0 0 _ _ k hbi1 hba1]
  rw [getD_zipPair 0 0 _ _ (k + 1) hbi2 hba2]
  rw [getD_map_at radians 0 0 inc k (by omega), getD_map_at radians 0 0 azi k (by omega),
    getD_map_at radians 0 0 inc (k + 1) hk, getD_map_at radians 0 0 azi (k + 1) (by omega)]
  rfl

theorem betaArr_getD (inc azi : List ℝ) (k : ℕ)
    (hk : k + 1 < inc.length) (hka : k + 1 < azi.length) :
    (betaArr (inc.map radians) (azi.map radians)).getD k 0 =
      beta (stationAt inc azi k, stationAt inc azi (k + 1)) := by
  have hp : k < (stationPairs (inc.map radians) (azi.map radians)).length := by
    rw [stationPairs_length]
    simp only [List.length_map]
    omega
  rw [betaArr, getD_map_at beta ((0, 0), (0, 0)) 0 _ k hp,
    stationPairs_getD inc azi k hk hka]

theorem rfArr_getD (inc azi : List ℝ) (k : ℕ)
    (hk : k + 1 < inc.length) (hka : k + 1 < azi.length) :
    (rfArr (inc.map radians) (azi.map radians)).getD k 0 =
      ratioFactor (beta (stationAt inc azi k, stationAt inc azi (k + 1))) := by
  have hb : k < (betaArr (inc.map radians) (azi.map radians)).length := by
    simp only [betaArr, List.length_map, stationPairs_length]
    omega
  rw [rfArr, getD_map_at ratioFactor 0 0 _ k hb, betaArr_getD inc azi k hk hka]

theorem scanl_getD_zero (ds : List ℝ) (a : ℝ) : (ds.scanl (· + ·) a).getD 0 0 = a := by
  cases ds <;> rfl

theorem scanl_getD_succ (ds : List ℝ) (a : ℝ) (k : ℕ) (hk : k < ds.length) :
    (ds.scanl (· + ·) a).getD (k + 1) 0 =
      (ds.scanl (· + ·) a).getD k 0 + ds.getD k 0 := by
  induction ds generalizing a k with
  | nil => simp at hk
  | cons d dt ih =>
    cases k with
    | zero => simp [List.scanl_cons, scanl_getD_zero]
    | succ k =>
      simpa [List.scanl_cons] using ih (a + d) k (by simpa using hk)

theorem deltas_length (g : ℝ → ((ℝ × ℝ) × (ℝ × ℝ)) → ℝ → ℝ) (md inc azi : List ℝ)
    (h1 : inc.length = md.length) (h2 : azi.length = md.length) :
    (List.zipWith (fun d q => g d q.1 q.2) (npDiff md)
      ((stationPairs (inc.map radians) (azi.map radians)).zip
        (rfArr (inc.map radians) (azi.map radians)))).length = md.length - 1 := by
  simp only [List.length_zipWith, List.length_zip, npDiff_length, stationPairs_length,
    rfArr, betaArr, List.length_map, h1, h2]
  omega

theorem delta_entry (g : ℝ → ((ℝ × ℝ) × (ℝ × ℝ)) → ℝ → ℝ) (md inc azi : List ℝ) (k : ℕ)
    (hk : k + 1 < md.length) (hki : k + 1 < inc.length) (hka : k + 1 < azi.length) :
    (List.zipWith (fun d q => g d q.1 q.2) (npDiff md)
      ((stationPairs (inc.map radians) (azi.map radians)).zip
        (rfArr (inc.map radians) (azi.map radians)))).getD k 0 =
      g (md.getD (k + 1) 0 - md.getD k 0) (stationAt inc azi k, stationAt inc azi (k + 1))
        (ratioFactor (beta (stationAt inc azi k, stationAt inc azi (k + 1)))) := by
  have hd : k < (npDiff md).length := by rw [npDiff_length]; omega
  have hsp : k < (stationPairs (inc.map radians) (azi.map radians)).length := by
    rw [stationPairs_length]
    simp only [List.length_map]
    omega
  have hrf : k < (rfArr (inc.map radians) (azi.map radians)).length := by
    simp only [rfArr, betaArr, List.length_map, stationPairs_length]
    omega
  have hq : k < ((stationPairs (inc.map radians) (azi.map radians)).zip
      (rfArr (inc.map radians) (azi.map radians))).length := by
    simp only [List.length_zip]
    omega
  rw [getD_zipWith (fun d q => g d q.1 q.2) 0 (((0, 0), (0, 0)), 0) 0 _ _ k hd hq]
  rw [getD_zipPair ((0, 0), (0, 0)) 0 _ _ k hsp hrf]
  rw [npDiff_getD md k hk]
  rw [stationPairs_getD inc azi k hki hka]
  rw [rfArr_getD inc azi k hki hka]

theorem ratioFactor_beta_nonneg (p : (ℝ × ℝ) × (ℝ × ℝ)) : 0 ≤ ratioFactor (beta p) := by
  have h0 : 0 ≤ beta p := Real.arccos_nonneg _
  have hpi : beta p ≤ Real.pi := Real.arccos_le_pi _
  rw [ratioFactor]
  split
  · next h =>
    have hb : 0 < beta p := lt_trans (by norm_num) h
    exact mul_nonneg (div_nonneg (by norm_num) hb.le)
      (Real.tan_nonneg_of_nonneg_of_le_pi_div_two (by linarith) (by linarith))
  · norm_num

theorem cos_radians_nonneg (x : ℝ) (h0 : 0 ≤ x) (h90 : x ≤ 90) :
    0 ≤ Real.cos (radians x) := by
  have hpi := Real.pi_pos
  apply Real.cos_nonneg_of_mem_Icc
  constructor
  · have : 0 ≤ x * (Real.pi / 180) := mul_nonneg h0 (by positivity)
    rw [radians]
    linarith
  · rw [radians]
    calc x * (Real.pi / 180) ≤ 90 * (Real.pi / 180) := by
          apply mul_le_mul_of_nonneg_right h90
          positivity
      _ = Real.pi / 2 := by ring

theorem le_mem_scanl (ds : List ℝ) : ∀ (a b : ℝ), (∀ d ∈ ds, 0 ≤ d) →
    b ∈ ds.scanl (· + ·) a → a ≤ b := by
  induction ds with
  | nil =>
    intro a b _ hb
    rw [List.scanl_nil, List.mem_singleton] at hb
    exact le_of_eq hb.symm
  | cons d dt ih =>
    intro a b hnn hb
    rw [List.scanl_cons, List.singleton_append, List.mem_cons] at hb
    cases hb with
    | inl h => exact le_of_eq h.symm
    | inr h =>
      have h1 := ih (a + d) b (fun x hx => hnn x (List.mem_cons_of_mem _ hx)) h
      have hd0 := hnn d (List.mem_cons_self _ _)
      linarith

theorem sorted_scanl_of_nonneg : ∀ (ds : List ℝ) (a : ℝ), (∀ d ∈ ds, 0 ≤ d) →
    List.Sorted (· ≤ ·) (ds.scanl (· + ·) a) := by
  intro ds
  induction ds with
  | nil =>
    intro a _
    rw [List.scanl_nil]
    exact List.sorted_singleton a
  | cons d dt ih =>
    intro a hnn
    rw [List.scanl_cons, List.singleton_append, List.sorted_cons]
    refine ⟨?_, ih (a + d) (fun x hx => hnn x (List.mem_cons_of_mem _ hx))⟩
    intro b hb
    have h1 := le_mem_scanl dt (a + d) b (fun x hx => hnn x (List.mem_cons_of_mem _ hx)) hb
    have hd0 := hnn d (List.mem_cons_self _ _)
    linarith

theorem forall2_trans_of {P : Top → Top → Prop} (hP : ∀ a b c, P a b → P b c → P a c) :
    ∀ {l m k : List Top}, List.Forall₂ P l m → List.Forall₂ P m k → List.Forall₂ P l k := by
  intro l m k h1
  induction h1 generalizing k with
  | nil =>
    intro h2
    cases h2
    exact List.Forall₂.nil
  | cons hab h ih =>
    intro h2
    cases h2 with
    | cons hbc h2t => exact List.Forall₂.cons (hP _ _ _ hab hbc) (ih h2t)

theorem forall2_map_self {P : Top → Top → Prop} (g : Top → Top)
    (h : ∀ t, P t (g t)) : ∀ l : List Top, List.Forall₂ P l (l.map g) := by
  intro l
  induction l with
  | nil => exact List.Forall₂.nil
  | cons t lt ih => exact List.Forall₂.cons (h t) ih

theorem forall2_refl_of {P : Top → Top → Prop} (h : ∀ t, P t t) :
    ∀ l : List Top, List.Forall₂ P l l := by
  intro l
  induction l with
  | nil => exact List.Forall₂.nil
  | cons t lt ih => exact List.Forall₂.cons (h t) ih

theorem apply_updates_cons (tops : List Top) (u : ℕ × ℚ) (us : List (ℕ × ℚ)) :
    apply_updates tops (u :: us) = apply_updates (tops.map (updOne u)) us := rfl

theorem forall2_apply_updates {P : Top → Top → Prop}
    (hrefl : ∀ t, P t t) (htrans : ∀ a b c, P a b → P b c → P a c) :
    ∀ upds : List (ℕ × ℚ), (∀ u ∈ upds, ∀ t, P t (updOne u t)) →
      ∀ tops : List Top, List.Forall₂ P tops (apply_updates tops upds) := by
  intro upds
  induction upds with
  | nil => intro _ tops; exact forall2_refl_of hrefl tops
  | cons u us ih =>
    intro h tops
    rw [apply_updates_cons]
    exact forall2_trans_of htrans
      (forall2_map_self (updOne u) (h u (List.mem_cons_self _ _)) tops)
      (ih (fun v hv => h v (List.mem_cons_of_mem _ hv)) (tops.map (updOne u)))

/-! ### Claim theorems -/

/-- C1: for every adjacent station pair (k, k+1) of a survey the solver's
dogleg angle is `arccos(clamp(cos I_k cos I_k1 + sin I_k sin I_k1 cos(A_k1 - A_k), -1, 1))`
(angles in radians) and its ratio factor is 1 when the angle is at most 1e-4
radians and `(2/b)·tan(b/2)` otherwise. -/
theorem solver_dogleg_and_ratio_factor (inc azi : List ℝ) (k : ℕ)
    (hk : k + 1 < inc.length) (hlen : azi.length = inc.length) :
    (betaArr (inc.map radians) (azi.map radians)).getD k 0 =
      Real.arccos (max (-1) (min
        (Real.cos (radians (inc.getD k 0)) * Real.cos (radians (inc.getD (k + 1) 0)) +
          Real.sin (radians (inc.getD k 0)) * Real.sin (radians (inc.getD (k + 1) 0)) *
            Real.cos (radians (azi.getD (k + 1) 0) - radians (azi.getD k 0))) 1)) ∧
    (rfArr (inc.map radians) (azi.map radians)).getD k 0 =
      (if (betaArr (inc.map radians) (azi.map radians)).getD k 0 ≤ 1e-4 then 1
       else (2 / (betaArr (inc.map radians) (azi.map radians)).getD k 0) *
         Real.tan ((betaArr (inc.map radians) (azi.map radians)).getD k 0 / 2)) := by
  constructor
  · rw [betaArr_getD inc azi k hk (by omega), beta, cosBeta, clip1_eq_clamp, stationAt, stationAt]
  · rw [rfArr_getD inc azi k hk (by omega), betaArr_getD inc azi k hk (by omega), ratioFactor_spec]

/-- C1 witness: the dogleg/ratio-factor formulas applied to the adjacent pair
(0, 1) of a two-station survey with inclinations 0 and 30 degrees. -/
theorem solver_dogleg_and_ratio_factor_witness :
    (0 + 1 < ([0, 30] : List ℝ).length ∧ ([0, 45] : List ℝ).length = ([0, 30] : List ℝ).length) ∧
    ((betaArr (([0, 30] : List ℝ).map radians) (([0, 45] : List ℝ).map radians)).getD 0 0 =
      Real.arccos (max (-1) (min
        (Real.cos (radians (([0, 30] : List ℝ).getD 0 0)) *
            Real.cos (radians (([0, 30] : List ℝ).getD 1 0)) +
          Real.sin (radians (([0, 30] : List ℝ).getD 0 0)) *
            Real.sin (radians (([0, 30] : List ℝ).getD 1 0)) *
            Real.cos (radians (([0, 45] : List ℝ).getD 1 0) -
              radians (([0, 45] : List ℝ).getD 0 0))) 1)) ∧
    (rfArr (([0, 30] : List ℝ).map radians) (([0, 45] : List ℝ).map radians)).getD 0 0 =
      (if (betaArr (([0, 30] : List ℝ).map radians) (([0, 45] : List ℝ).map radians)).getD 0 0 ≤ 1e-4
       then 1
       else (2 / (betaArr (([0, 30] : List ℝ).map radians) (([0, 45] : List ℝ).map radians)).getD 0 0) *
         Real.tan ((betaArr (([0, 30] : List ℝ).map radians) (([0, 45] : List ℝ).map radians)).getD 0 0 / 2))) :=
  ⟨⟨by norm_num, by norm_num⟩,
    solver_dogleg_and_ratio_factor [0, 30] [0, 45] 0 (by norm_num) (by norm_num)⟩

/-- C2: the per-interval increments are integrated as a running sum starting
at zero at the first station into cumulative TVD, North and East arrays
aligned one-to-one with the input stations; true elevation equals
kelly-bushing elevation minus cumulative TVD; a single-station survey yields
exactly one path point with zero TVD, North and East displacement. -/
theorem solver_running_sum (md inc azi : List ℝ) (kb : ℝ)
    (hne : md ≠ []) (h1 : inc.length = md.length) (h2 : azi.length = md.length) :
    ((minimum_curvature md inc azi kb).tvd.length = md.length ∧
      (minimum_curvature md inc azi kb).north.length = md.length ∧
      (minimum_curvature md inc azi kb).east.length = md.length) ∧
    ((minimum_curvature md inc azi kb).tvd.getD 0 0 = 0 ∧
      (minimum_curvature md inc azi kb).north.getD 0 0 = 0 ∧
      (minimum_curvature md inc azi kb).east.getD 0 0 = 0) ∧
    (∀ k, k + 1 < md.length →
      (minimum_curvature md inc azi kb).tvd.getD (k + 1) 0 =
        (minimum_curvature md inc azi kb).tvd.getD k 0 +
          dTVD (md.getD (k + 1) 0 - md.getD k 0)
            (stationAt inc azi k, stationAt inc azi (k + 1))
            (ratioFactor (beta (stationAt inc azi k, stationAt inc azi (k + 1)))) ∧
      (minimum_curvature md inc azi kb).north.getD (k + 1) 0 =
        (minimum_curvature md inc azi kb).north.getD k 0 +
          dN (md.getD (k + 1) 0 - md.getD k 0)
            (stationAt inc azi k, stationAt inc azi (k + 1))
            (ratioFactor (beta (stationAt inc azi k, stationAt inc azi (k + 1)))) ∧
      (minimum_curvature md inc azi kb).east.getD (k + 1) 0 =
        (minimum_curvature md inc azi kb).east.getD k 0 +
          dE (md.getD (k + 1) 0 - md.getD k 0)
            (stationAt inc azi k, stationAt inc azi (k + 1))
            (ratioFactor (beta (stationAt inc azi k, stationAt inc azi (k + 1))))) ∧
    (∀ k, k < md.length →
      (minimum_curvature md inc azi kb).true_z.getD k 0 =
        kb - (minimum_curvature md inc azi kb).tvd.getD k 0) ∧
    (md.length = 1 →
      (minimum_curvature md inc azi kb).tvd = [0] ∧
      (minimum_curvature md inc azi kb).north = [0] ∧
      (minimum_curvature md inc azi kb).east = [0]) := by
  have hpos : 0 < md.length := List.length_pos.mpr hne
  have hlt : (minimum_curvature md inc azi kb).tvd.length = md.length := by
    rw [mc_tvd, List.length_scanl, deltas_length dTVD md inc azi h1 h2]
    omega
  refine ⟨⟨hlt, ?_, ?_⟩, ⟨?_, ?_, ?_⟩, ?_, ?_, ?_⟩
  · rw [mc_north, List.length_scanl, deltas_length dN md inc azi h1 h2]
    omega
  · rw [mc_east, List.length_scanl, deltas_length dE md inc azi h1 h2]
    omega
  · rw [mc_tvd, scanl_getD_zero]
  · rw [mc_north, scanl_getD_zero]
  · rw [mc_east, scanl_getD_zero]
  · intro k hk
    refine ⟨?_, ?_, ?_⟩
    · rw [mc_tvd, scanl_getD_succ _ 0 k (by rw [deltas_length dTVD md inc azi h1 h2]; omega),
        delta_entry dTVD md inc azi k hk (by omega) (by omega)]
    · rw [mc_north, scanl_getD_succ _ 0 k (by rw [deltas_length dN md inc azi h1 h2]; omega),
        delta_entry dN md inc azi k hk (by omega) (by omega)]
    · rw [mc_east, scanl_getD_succ _ 0 k (by rw [deltas_length dE md inc azi h1 h2]; omega),
        delta_entry dE md inc azi k hk (by omega) (by omega)]
  · intro k hk
    rw [mc_true_z, getD_map_at (fun t => kb - t) 0 0 _ k (by rw [hlt]; omega)]
  · intro hone
    obtain ⟨m, rfl⟩ := List.length_eq_one.mp hone
    obtain ⟨i, rfl⟩ := List.length_eq_one.mp h1
    obtain ⟨a, rfl⟩ := List.length_eq_one.mp h2
    exact ⟨rfl, rfl, rfl⟩

/-- C2 witness: a two-station survey has arrays of length 2 starting at 0. -/
theorem solver_running_sum_witness :
    (([0, 100] : List ℝ) ≠ [] ∧ ([0, 30] : List ℝ).length = ([0, 100] : List ℝ).length ∧
      ([0, 45] : List ℝ).length = ([0, 100] : List ℝ).length) ∧
    (minimum_curvature [0, 100] [0, 30] [0, 45] 5).tvd.length = 2 ∧
    (minimum_curvature [0, 100] [0, 30] [0, 45] 5).tvd.getD 0 0 = 0 := by
  have h := solver_running_sum [0, 100] [0, 30] [0, 45] 5 (by simp) rfl rfl
  refine ⟨⟨by simp, rfl, rfl⟩, ?_, h.2.1.1⟩
  rw [h.1.1]
  rfl

/-- C8: the solver as implemented — interval deltas and dogleg/ratio-factor
arrays computed twice, the first computation discarded — produces for every
input exactly the same TVD, North and East arrays as the clean reference
definition computing the pairwise adjacent-station deltas once. -/
theorem solver_refines_single_diff (md inc azi : List ℝ) (start_elev : ℝ) :
    (minimum_curvature md inc azi start_elev).tvd
        = (minimum_curvature_single_diff md inc azi start_elev).tvd ∧
      (minimum_curvature md inc azi start_elev).north
        = (minimum_curvature_single_diff md inc azi start_elev).north ∧
      (minimum_curvature md inc azi start_elev).east
        = (minimum_curvature_single_diff md inc azi start_elev).east :=
  ⟨rfl, rfl, rfl⟩

/-- C10: the projected CRS identifier is `26900 + (floor((lon + 180)/6) + 1)`,
a function of the surface longitude alone; the latitude has no effect. -/
theorem epsg_zone_from_longitude (lon lat : ℚ) (h : -180 ≤ lon) :
    epsg_for lon lat = 26900 + (⌊(lon + 180) / 6⌋ + 1) ∧
      ∀ lat2 : ℚ, epsg_for lon lat2 = epsg_for lon lat := by
  refine ⟨?_, fun lat2 => rfl⟩
  have h0 : (0 : ℚ) ≤ (lon + 180) / 6 := by
    apply div_nonneg _ (by norm_num)
    linarith
  simp [epsg_for, pyInt, h0]

/-- C10 witness: the contiguous-US longitude -100 (latitude 40) selects NAD83
UTM zone 14, EPSG 26914, independently of the latitude. -/
theorem epsg_zone_from_longitude_witness :
    (-180 ≤ (-100 : ℚ)) ∧
      (epsg_for (-100) 40 = 26900 + (⌊((-100 : ℚ) + 180) / 6⌋ + 1) ∧
        ∀ lat2 : ℚ, epsg_for (-100) lat2 = epsg_for (-100) 40) :=
  ⟨by norm_num, epsg_zone_from_longitude (-100) 40 (by norm_num)⟩

/-- C4: with azimuth reference TRUE_NORTH (the string 'true north', compared
case-insensitively) every station's azimuth is reduced by the convergence
angle before reaching the solver; with GRID_NORTH azimuths pass unmodified. -/
theorem azimuth_reference_convergence (ref : String) (conv : ℝ) (azi : List ℝ) :
    (strLower ref = "true north" →
      apply_convergence ref conv azi = azi.map (fun a => a - conv)) ∧
    (strLower ref = "grid north" → apply_convergence ref conv azi = azi) := by
  constructor
  · intro h
    simp [apply_convergence, h]
  · intro h
    rw [apply_convergence, h]
    simp

/-- C6: for a survey sorted ascending by measured depth whose inclination
stays within [0, 90] degrees at every station, the cumulative TVD array is
non-decreasing. -/
theorem tvd_monotone (md inc azi : List ℝ) (kb : ℝ)
    (hmd : List.Sorted (· ≤ ·) md)
    (hinc : ∀ x ∈ inc, 0 ≤ x ∧ x ≤ 90) :
    List.Sorted (· ≤ ·) ((minimum_curvature md inc azi kb).tvd) := by
  rw [mc_tvd]
  apply sorted_scanl_of_nonneg
  intro d hd
  obtain ⟨k, hk, rfl⟩ := List.getElem_of_mem hd
  have hk' := hk
  simp only [List.length_zipWith, List.length_zip, npDiff_length, stationPairs_length,
    rfArr, betaArr, List.length_map] at hk'
  have hkm : k + 1 < md.length := by omega
  have hki : k + 1 < inc.length := by omega
  have hka : k + 1 < azi.length := by omega
  rw [← List.getD_eq_getElem _ 0 hk, delta_entry dTVD md inc azi k hkm hki hka]
  have hd0 : 0 ≤ md.getD (k + 1) 0 - md.getD k 0 := by
    have hp := List.pairwise_iff_getElem.mp hmd k (k + 1) (by omega) hkm (by omega)
    rw [List.getD_eq_getElem _ _ (by omega : k < md.length), List.getD_eq_getElem _ _ hkm]
    linarith
  have hc : ∀ j, j < inc.length → 0 ≤ Real.cos (radians (inc.getD j 0)) := by
    intro j hj
    have hmem : inc.getD j 0 ∈ inc := by
      rw [List.getD_eq_getElem _ _ hj]
      exact List.getElem_mem hj
    exact cos_radians_nonneg _ (hinc _ hmem).1 (hinc _ hmem).2
  rw [dTVD]
  apply mul_nonneg (mul_nonneg (by linarith) _) (ratioFactor_beta_nonneg _)
  simp only [stationAt]
  exact add_nonneg (hc k (by omega)) (hc (k + 1) hki)

/-- C6 witness: a three-station build section with inclinations 0, 30 and 60
degrees has a non-decreasing TVD array. -/
theorem tvd_monotone_witness :
    List.Sorted (· ≤ ·) ([0, 100, 200] : List ℝ) ∧
    (∀ x ∈ ([0, 30, 60] : List ℝ), 0 ≤ x ∧ x ≤ 90) ∧
    List.Sorted (· ≤ ·) ((minimum_curvature [0, 100, 200] [0, 30, 60] [10, 20, 30] 7).tvd) :=
  ⟨by norm_num [List.sorted_cons],
   by intro x hx; simp at hx; rcases hx with rfl | rfl | rfl <;> norm_num,
   tvd_monotone [0, 100, 200] [0, 30, 60] [10, 20, 30] 7
     (by norm_num [List.sorted_cons])
     (by intro x hx; simp at hx; rcases hx with rfl | rfl | rfl <;> norm_num)⟩

/-- C7: for a two-station survey with inclination 0 at both stations and the
first station at the surface (MD = 0), North and East offsets are 0 at every
station and cumulative TVD equals measured depth exactly at every station. -/
theorem vertical_hole_exact (m a1 a2 kb : ℝ) :
    (minimum_curvature [0, m] [0, 0] [a1, a2] kb).tvd = [0, m] ∧
    (minimum_curvature [0, m] [0, 0] [a1, a2] kb).north = [0, 0] ∧
    (minimum_curvature [0, m] [0, 0] [a1, a2] kb).east = [0, 0] := by
  have hb : beta ((radians 0, radians a1), (radians 0, radians a2)) = 0 := by
    rw [beta, cosBeta, clip1_eq_clamp]
    norm_num [radians, Real.arccos_one]
  have hrf : ratioFactor 0 = 1 := by norm_num [ratioFactor]
  refine ⟨?_, ?_, ?_⟩
  · have key : (minimum_curvature [0, m] [0, 0] [a1, a2] kb).tvd =
        [0, 0 + dTVD (m - 0) ((radians 0, radians a1), (radians 0, radians a2))
          (ratioFactor (beta ((radians 0, radians a1), (radians 0, radians a2))))] := rfl
    rw [key, hb, hrf]
    simp only [dTVD, radians, zero_mul, Real.cos_zero, sub_zero, mul_one, zero_add]
    norm_num
  · have key : (minimum_curvature [0, m] [0, 0] [a1, a2] kb).north =
        [0, 0 + dN (m - 0) ((radians 0, radians a1), (radians 0, radians a2))
          (ratioFactor (beta ((radians 0, radians a1), (radians 0, radians a2))))] := rfl
    rw [key, hb, hrf]
    simp [dN, radians]
  · have key : (minimum_curvature [0, m] [0, 0] [a1, a2] kb).east =
        [0, 0 + dE (m - 0) ((radians 0, radians a1), (radians 0, radians a2))
          (ratioFactor (beta ((radians 0, radians a1), (radians 0, radians a2))))] := rfl
    rw [key, hb, hrf]
    simp [dE, radians]

/-- C3 counterexample: a survey whose two stations share measured depth 100
is not rejected — `calculate_well` sorts it and proceeds, so no
`DuplicateDepthError` exists in the code. -/
theorem normalize_survey_accepts_duplicate_md :
    normalize_survey [⟨100, 5, 10⟩, ⟨100, 6, 11⟩]
      = some [⟨100, 5, 10⟩, ⟨100, 6, 11⟩] := by
  have hs : ([⟨100, 5, 10⟩, ⟨100, 6, 11⟩] : List Station).mergeSort
      (fun a b => decide (a.md ≤ b.md)) = [⟨100, 5, 10⟩, ⟨100, 6, 11⟩] :=
    List.mergeSort_of_sorted (by decide)
  simp [normalize_survey, hs]

/-- C3 (amended): on an empty station list the normalization step returns
early without computing (no error of any kind is raised); otherwise it sorts
the stations ascending by measured_depth and keeps duplicate depths — it
performs no duplicate-depth check. -/
theorem normalize_survey_behavior (pts : List Station) :
    (pts = [] → normalize_survey pts = none) ∧
    (pts ≠ [] → ∃ l, normalize_survey pts = some l ∧
      List.Sorted (fun a b : Station => a.md ≤ b.md) l ∧ l.Perm pts) := by
  constructor
  · rintro rfl; rfl
  · intro hne
    refine ⟨pts.mergeSort (fun a b => decide (a.md ≤ b.md)), ?_, ?_, ?_⟩
    · have h1 : pts.isEmpty = false := by simpa using hne
      have hne2 : pts.mergeSort (fun a b => decide (a.md ≤ b.md)) ≠ [] := by
        intro h
        have hp := List.mergeSort_perm pts (fun a b => decide (a.md ≤ b.md))
        rw [h] at hp
        exact hne hp.symm.eq_nil
      have h2 : (pts.mergeSort (fun a b => decide (a.md ≤ b.md))).isEmpty = false := by
        simpa using hne2
      simp [normalize_survey, h1, h2]
    · have hs := @List.sorted_mergeSort Station (fun a b => decide (a.md ≤ b.md))
        (fun a b c h1 h2 => by simp only [decide_eq_true_eq] at h1 h2 ⊢; exact le_trans h1 h2)
        (fun a b => by simpa using le_total a.md b.md) pts
      exact hs.imp (fun h => by simpa using h)
    · exact List.mergeSort_perm pts _

/-- C3 witness: the empty survey is skipped, and an unsorted two-station
survey is sorted ascending by measured depth. -/
theorem normalize_survey_behavior_witness :
    (normalize_survey [] = none) ∧
    (([⟨200, 1, 2⟩, ⟨100, 3, 4⟩] : List Station) ≠ [] ∧
      ∃ l, normalize_survey [⟨200, 1, 2⟩, ⟨100, 3, 4⟩] = some l ∧
        List.Sorted (fun a b : Station => a.md ≤ b.md) l ∧
        l.Perm [⟨200, 1, 2⟩, ⟨100, 3, 4⟩]) :=
  ⟨(normalize_survey_behavior []).1 rfl,
   ⟨by decide, (normalize_survey_behavior [⟨200, 1, 2⟩, ⟨100, 3, 4⟩]).2 (by decide)⟩⟩

/-- C4 witness: applied to the references 'True North' and 'Grid North' with
convergence 2 and azimuths [10, 20]. -/
theorem azimuth_reference_convergence_witness :
    (strLower "True North" = "true north" ∧
      apply_convergence "True North" 2 [10, 20] = [10, 20].map (fun a => a - 2)) ∧
    (strLower "Grid North" = "grid north" ∧
      apply_convergence "Grid North" 2 [10, 20] = [10, 20]) :=
  ⟨⟨by decide, (azimuth_reference_convergence "True North" 2 [10, 20]).1 (by decide)⟩,
   ⟨by decide, (azimuth_reference_convergence "Grid North" 2 [10, 20]).2 (by decide)⟩⟩

/-- C9: the tops synchronization only overwrites the derived depth_tvd column
of existing picks — it never creates a pick, never deletes a pick, and leaves
every other attribute (top_id, depth_md) of every pick unchanged. -/
theorem tops_sync_frame (survey_md survey_tvd : List ℚ) (tops : List Top) :
    (apply_updates tops (recalc_tops survey_md survey_tvd tops)).length = tops.length ∧
    List.Forall₂ (fun t t' : Top => t'.top_id = t.top_id ∧ t'.depth_md = t.depth_md)
      tops (apply_updates tops (recalc_tops survey_md survey_tvd tops)) := by
  have h := @forall2_apply_updates
    (fun t t' : Top => t'.top_id = t.top_id ∧ t'.depth_md = t.depth_md)
    (fun t => ⟨rfl, rfl⟩)
    (fun a b c hab hbc => ⟨hbc.1.trans hab.1, hbc.2.trans hab.2⟩)
    (recalc_tops survey_md survey_tvd tops)
    (fun u hu t => by rw [updOne]; split <;> exact ⟨rfl, rfl⟩)
    tops
  exact ⟨h.length_eq.symm, h⟩

/-- C5: a pick whose measured depth lies within the survey's MD range
[min, max] gets its interpolated TVD included in the batch update; a pick
outside that range is left completely untouched by the synchronization and no
error is raised (the update simply skips it). -/
theorem tops_interp_in_range (survey_md survey_tvd : List ℚ) (tops : List Top) (t : Top)
    (ht : t ∈ tops) (hids : (tops.map Top.top_id).Nodup) :
    (listMin survey_md ≤ t.depth_md → t.depth_md ≤ listMax survey_md →
      (t.top_id, npInterp t.depth_md survey_md survey_tvd)
        ∈ recalc_tops survey_md survey_tvd tops) ∧
    (t.depth_md < listMin survey_md ∨ listMax survey_md < t.depth_md →
      List.Forall₂ (fun a b : Top => a.top_id = t.top_id → b = a) tops
        (apply_updates tops (recalc_tops survey_md survey_tvd tops))) := by
  constructor
  · intro hmin hmax
    apply List.mem_filterMap.mpr
    refine ⟨t, ht, ?_⟩
    rw [if_neg (not_lt.mpr hmax), if_neg (not_lt.mpr hmin)]
  · intro hout
    have hnotin : ∀ u ∈ recalc_tops survey_md survey_tvd tops, u.1 ≠ t.top_id := by
      intro u hu heq
      obtain ⟨t2, ht2, hft2⟩ := List.mem_filterMap.mp hu
      by_cases hgt : t2.depth_md > listMax survey_md
      · rw [if_pos hgt] at hft2
        exact Option.noConfusion hft2
      by_cases hlt : t2.depth_md < listMin survey_md
      · rw [if_neg hgt, if_pos hlt] at hft2
        exact Option.noConfusion hft2
      rw [if_neg hgt, if_neg hlt] at hft2
      have ht2id : t2.top_id = t.top_id := by
        have hu1 := congrArg Prod.fst (Option.some.inj hft2)
        rw [← heq]
        exact hu1
      have ht2t : t2 = t := List.inj_on_of_nodup_map hids ht2 ht ht2id
      rw [ht2t] at hgt hlt
      rcases hout with hko | hko
      · exact hlt hko
      · exact hgt hko
    apply @forall2_apply_updates (fun a b : Top => a.top_id = t.top_id → b = a)
      (fun a _ => rfl)
      (fun a b c hab hbc ha => by
        have hba := hab ha
        have hcb := hbc (by rw [hba]; exact ha)
        rw [hcb, hba])
      (recalc_tops survey_md survey_tvd tops)
      (fun u hu s hsid => by
        rw [updOne, if_neg]
        intro h
        exact hnotin u hu (by rw [← h]; exact hsid))
      tops

/-- C5 witness: with survey (MD, TVD) curve [(0,0), (100,90)], the pick at
depth 50 (inside the range) is scheduled for update with its interpolated
TVD, while the pick at depth 5000 (beyond the survey) keeps its stored
attributes untouched. -/
theorem tops_interp_in_range_witness :
    ((⟨1, 50, none⟩ : Top) ∈ ([⟨1, 50, none⟩] : List Top) ∧
      (([⟨1, 50, none⟩] : List Top).map Top.top_id).Nodup ∧
      listMin [0, 100] ≤ (50 : ℚ) ∧ (50 : ℚ) ≤ listMax [0, 100] ∧
      ((1 : ℕ), npInterp 50 [0, 100] [0, 90])
        ∈ recalc_tops [0, 100] [0, 90] [⟨1, 50, none⟩]) ∧
    ((⟨2, 5000, some 3⟩ : Top) ∈ ([⟨2, 5000, some 3⟩] : List Top) ∧
      (([⟨2, 5000, some 3⟩] : List Top).map Top.top_id).Nodup ∧
      listMax [0, 100] < (5000 : ℚ) ∧
      List.Forall₂ (fun a b : Top => a.top_id = 2 → b = a) [⟨2, 5000, some 3⟩]
        (apply_updates [⟨2, 5000, some 3⟩] (recalc_tops [0, 100] [0, 90] [⟨2, 5000, some 3⟩]))) :=
  ⟨⟨by decide, by decide, by decide, by decide,
    (tops_interp_in_range [0, 100] [0, 90] [⟨1, 50, none⟩] ⟨1, 50, none⟩
      (by decide) (by decide)).1 (by decide) (by decide)⟩,
   ⟨by decide, by decide, by decide,
    (tops_interp_in_range [0, 100] [0, 90] [⟨2, 5000, some 3⟩] ⟨2, 5000, some 3⟩
      (by decide) (by decide)).2 (Or.inr (by decide))⟩⟩

end Traj
